import Mathlib

/-!
Shallow embedding of `src/dist/rest/exchange.js` (class `ExchangeAPI`) from the
hyperliquid TypeScript client.

Modelling conventions:
* JavaScript numbers that hold integer values (asset indices, order ids,
  timestamps from `Date.now()`, leverage, micro-USDC amounts) are `Nat`/`Int`.
* The external `symbolConversion.getAssetIndex` capability is a function
  `String → Option Nat` (directory); `undefined` is `none`.
* `Date.now()` reads are a parameter `now` of the environment: each API method
  in the source reads the clock exactly once, so a call is a pure function of
  the environment at the moment of the call.
* A thrown JS `Error` is `Except.error` carrying the message string.
* The external signer is recorded, not executed: a `Sig` value remembers which
  signing entry point was invoked and with which arguments.  The external
  transport (`httpApi.makeRequest`) is likewise recorded as a request event.
* Object-literal field presence matters for the payload: the `vaultAddress`
  key of a payload is `Option (Option String)` — `none` means the key is
  absent from the object literal, `some v` means the key is present with value
  `v` (`some none` models a present key holding JS `null`).
-/

namespace Hyperliquid

/-- Network flag, `const IS_MAINNET = true` (exchange.js line 8). -/
def IS_MAINNET : Bool := true

/-- An order request as accepted by `placeOrder`/`modifyOrder`: a symbol plus
the order fields.  The order-type-specific fields are carried opaquely; only
`coin` is inspected by exchange.js itself. -/
structure OrderRequest where
  coin : String
  isBuy : Bool
  price : String
  size : String
  reduceOnly : Bool
  cloid : Option String
  deriving Repr, DecidableEq

/-- Modelled from the spec: `orderRequestToOrderWire` lives in
`utils/signing` which is not part of the visible source.  Per §3 of the spec an
OrderWire is "protocol-canonical encoding of an OrderRequest with `coin`
replaced by `AssetIndex`", so the wire carries the resolved asset index in
place of the symbol and the remaining order fields unchanged. -/
structure OrderWire where
  asset : Nat
  isBuy : Bool
  price : String
  size : String
  reduceOnly : Bool
  cloid : Option String
  deriving Repr, DecidableEq

/-- Modelled from the spec: the missing `signing.orderRequestToOrderWire`
replaces the request's `coin` by the resolved asset index. -/
def orderRequestToOrderWire (req : OrderRequest) (assetIndex : Nat) : OrderWire :=
  { asset := assetIndex
    isBuy := req.isBuy
    price := req.price
    size := req.size
    reduceOnly := req.reduceOnly
    cloid := req.cloid }

/-- One entry of a `CANCEL` action: `{ a, o }` (asset index, order id). -/
structure CancelItem where
  a : Nat
  o : Nat
  deriving Repr, DecidableEq

/-- Caller-side cancel request: `{ coin, o }`. -/
structure CancelRequest where
  coin : String
  o : Nat
  deriving Repr, DecidableEq

/-- Intermediate value of `cancelOrder`: `{ ...req, a }` — the cancel request
spread together with its resolved asset index. -/
structure CancelWithIndex where
  coin : String
  o : Nat
  a : Nat
  deriving Repr, DecidableEq

/-- One entry of a `CANCEL_BY_CLOID` action: `{ asset, cloid }`. -/
structure CloidCancelItem where
  asset : Nat
  cloid : String
  deriving Repr, DecidableEq

/-- Caller-side modify request: `{ oid, order }`. -/
structure ModifyRequest where
  oid : Nat
  order : OrderRequest
  deriving Repr, DecidableEq

/-- One entry of a `BATCH_MODIFY` action: `{ oid, order }` with the order in
wire form. -/
structure ModifyWire where
  oid : Nat
  order : OrderWire
  deriving Repr, DecidableEq

/-- The nested `classTransfer` object of a `SPOT_USER` action. -/
structure ClassTransfer where
  usdc : Nat
  toPerp : Bool
  deriving Repr, DecidableEq

/-- The closed sum of action shapes built by exchange.js, one constructor per
`ExchangeType` discriminator, each carrying exactly the fields of the object
literal in the source. -/
inductive Action where
  | order (orders : List OrderWire)
  | cancel (cancels : List CancelItem)
  | cancelByCloid (cancels : List CloidCancelItem)
  | modify (oid : Nat) (order : OrderWire)
  | batchModify (modifies : List ModifyWire)
  | updateLeverage (asset : Nat) (isCross : Bool) (leverage : Nat)
  | updateIsolatedMargin (asset : Nat) (isBuy : Bool) (ntli : Int)
  | usdSend (hyperliquidChain signatureChainId destination amount : String) (time : Nat)
  | spotSend (hyperliquidChain signatureChainId destination token amount : String) (time : Nat)
  | withdraw (hyperliquidChain signatureChainId destination amount : String) (time : Nat)
  | spotUser (classTransfer : ClassTransfer)
  | scheduleCancel (time : Nat)
  | vaultTransfer (vaultAddress : String) (isDeposit : Bool) (usd : Nat)
  | setReferrer (code : String)
  deriving Repr, DecidableEq

/-- Modelled from the spec: `orderWiresToOrderAction` lives in `utils/signing`
which is not part of the visible source.  Per §8 of the spec it produces "an
action of kind PlaceOrder containing one OrderWire" per wire, i.e. the
PlaceOrder variant over the given wire list. -/
def orderWiresToOrderAction (orderWires : List OrderWire) : Action :=
  Action.order orderWires

/-- The two signing schemes of spec §4.4. -/
inductive SignScheme where
  | l1
  | typedTransfer
  deriving Repr, DecidableEq

/-- A recorded invocation of the external signer: which signing entry point of
`utils/signing` was called, with which arguments (the wallet is the instance's
fixed wallet and is omitted). -/
inductive Sig where
  | l1 (action : Action) (vaultAddress : Option String) (nonce : Nat)
  | usdTransferTyped (action : Action)
  | userSignedTyped (action : Action) (payloadTypes : List (String × String)) (primaryType : String)
  | withdrawTyped (action : Action)
  deriving Repr, DecidableEq

/-- Modelled from the spec: §4.4 assigns `signL1Action` to Scheme L1, and the
user-signed transfer entry points (`signUsdTransferAction`,
`signUserSignedAction`, `signWithdrawFromBridgeAction`, all in the missing
`utils/signing`) to Scheme TypedTransfer. -/
def Sig.scheme : Sig → SignScheme
  | .l1 _ _ _ => .l1
  | .usdTransferTyped _ => .typedTransfer
  | .userSignedTyped _ _ _ => .typedTransfer
  | .withdrawTyped _ => .typedTransfer

/-- A request payload as assembled by exchange.js.  `vaultAddress` is
`none` when the key is absent from the payload object literal and `some v`
when the key is present holding `v` (`some none` = present holding `null`). -/
structure Payload where
  action : Action
  nonce : Nat
  signature : Sig
  vaultAddress : Option (Option String)
  deriving Repr, DecidableEq

deriving instance DecidableEq for Except

/-- The observable outcome of one API call: the result (the payload handed to
the transport, or the thrown error message), the signer invocations, and the
dispatched requests (payload together with its rate-limit weight). -/
structure CallResult where
  result : Except String Payload
  signatures : List Sig
  requests : List (Payload × Nat)
  deriving Repr, DecidableEq

/-- The environment of a single call: the external symbol directory and the
wall-clock millisecond reading `Date.now()` would return during the call. -/
structure Env where
  dir : String → Option Nat
  now : Nat

/-- Method `getAssetIndex`: look the symbol up, throw
`Unknown asset: ${symbol}` when the directory returns `undefined`. -/
def getAssetIndex (env : Env) (symbol : String) : Except String Nat :=
  match env.dir symbol with
  | none => .error ("Unknown asset: " ++ symbol)
  | some index => .ok index

/-- Model of `Promise.all(xs.map f)` for independent fallible lookups: resolve
each element in input order, keeping results positionally; if any lookup
fails the whole batch fails with a failing element's error. -/
def promiseAll {α β : Type} (f : α → Except String β) : List α → Except String (List β)
  | [] => .ok []
  | x :: xs =>
    match f x with
    | .error e => .error e
    | .ok y =>
      match promiseAll f xs with
      | .error e => .error e
      | .ok ys => .ok (y :: ys)

/-- A call that threw before signing or dispatching anything. -/
def failCall (e : String) : CallResult :=
  ⟨.error e, [], []⟩

/-- Method `placeOrder(orderRequest, vaultAddress = null)`. -/
def placeOrder (env : Env) (orderRequest : OrderRequest)
    (vaultAddress : Option String) : CallResult :=
  match getAssetIndex env orderRequest.coin with
  | .error e => failCall e
  | .ok assetIndex =>
    let orderWire := orderRequestToOrderWire orderRequest assetIndex
    let action := orderWiresToOrderAction [orderWire]
    let nonce := env.now
    let signature := Sig.l1 action vaultAddress nonce
    let payload : Payload := ⟨action, nonce, signature, some vaultAddress⟩
    ⟨.ok payload, [signature], [(payload, 1)]⟩

/-- Method `cancelOrder(cancelRequests)`, list form (`Array.isArray` true; a
single request is the singleton list). -/
def cancelOrder (env : Env) (cancelRequests : List CancelRequest) : CallResult :=
  match promiseAll
      (fun req => (getAssetIndex env req.coin).map
        (fun a => CancelWithIndex.mk req.coin req.o a))
      cancelRequests with
  | .error e => failCall e
  | .ok cancelsWithIndices =>
    let action := Action.cancel (cancelsWithIndices.map (fun c => ⟨c.a, c.o⟩))
    let nonce := env.now
    let signature := Sig.l1 action none nonce
    let payload : Payload := ⟨action, nonce, signature, none⟩
    ⟨.ok payload, [signature], [(payload, 1)]⟩

/-- Method `cancelOrderByCloid(symbol, cloid)`. -/
def cancelOrderByCloid (env : Env) (symbol : String) (cloid : String) : CallResult :=
  match getAssetIndex env symbol with
  | .error e => failCall e
  | .ok assetIndex =>
    let action := Action.cancelByCloid [⟨assetIndex, cloid⟩]
    let nonce := env.now
    let signature := Sig.l1 action none nonce
    let payload : Payload := ⟨action, nonce, signature, none⟩
    ⟨.ok payload, [signature], [(payload, 1)]⟩

/-- Method `modifyOrder(oid, orderRequest)`. -/
def modifyOrder (env : Env) (oid : Nat) (orderRequest : OrderRequest) : CallResult :=
  match getAssetIndex env orderRequest.coin with
  | .error e => failCall e
  | .ok assetIndex =>
    let orderWire := orderRequestToOrderWire orderRequest assetIndex
    let action := Action.modify oid orderWire
    let nonce := env.now
    let signature := Sig.l1 action none nonce
    let payload : Payload := ⟨action, nonce, signature, none⟩
    ⟨.ok payload, [signature], [(payload, 1)]⟩

/-- Method `batchModifyOrders(modifies)`: resolve all asset indices in
parallel, then pair each input with its index by position. -/
def batchModifyOrders (env : Env) (modifies : List ModifyRequest) : CallResult :=
  match promiseAll (fun m => getAssetIndex env m.order.coin) modifies with
  | .error e => failCall e
  | .ok assetIndices =>
    let action := Action.batchModify
      (List.zipWith (fun m a => ModifyWire.mk m.oid (orderRequestToOrderWire m.order a))
        modifies assetIndices)
    let nonce := env.now
    let signature := Sig.l1 action none nonce
    let payload : Payload := ⟨action, nonce, signature, none⟩
    ⟨.ok payload, [signature], [(payload, 1)]⟩

/-- Method `updateLeverage(symbol, leverageMode, leverage)`. -/
def updateLeverage (env : Env) (symbol : String) (leverageMode : String)
    (leverage : Nat) : CallResult :=
  match getAssetIndex env symbol with
  | .error e => failCall e
  | .ok assetIndex =>
    let action := Action.updateLeverage assetIndex (leverageMode == "cross") leverage
    let nonce := env.now
    let signature := Sig.l1 action none nonce
    let payload : Payload := ⟨action, nonce, signature, none⟩
    ⟨.ok payload, [signature], [(payload, 1)]⟩

/-- Method `updateIsolatedMargin(symbol, isBuy, ntli)`. -/
def updateIsolatedMargin (env : Env) (symbol : String) (isBuy : Bool)
    (ntli : Int) : CallResult :=
  match getAssetIndex env symbol with
  | .error e => failCall e
  | .ok assetIndex =>
    let action := Action.updateIsolatedMargin assetIndex isBuy ntli
    let nonce := env.now
    let signature := Sig.l1 action none nonce
    let payload : Payload := ⟨action, nonce, signature, none⟩
    ⟨.ok payload, [signature], [(payload, 1)]⟩

/-- Method `usdTransfer(destination, amount)`.  `amount.toString()` for an
integral JS number is its decimal rendering, `toString` on `Nat`. -/
def usdTransfer (env : Env) (destination : String) (amount : Nat) : CallResult :=
  let action := Action.usdSend (if IS_MAINNET then "Mainnet" else "Testnet")
    "0xa4b1" destination (toString amount) env.now
  let signature := Sig.usdTransferTyped action
  let payload : Payload := ⟨action, env.now, signature, none⟩
  ⟨.ok payload, [signature], [(payload, 1)]⟩

/-- Method `spotTransfer(destination, token, amount)` (`amount` is already a
string in the source). -/
def spotTransfer (env : Env) (destination : String) (token : String)
    (amount : String) : CallResult :=
  let action := Action.spotSend (if IS_MAINNET then "Mainnet" else "Testnet")
    "0xa4b1" destination token amount env.now
  let signature := Sig.userSignedTyped action
    [("hyperliquidChain", "string"), ("destination", "string"), ("token", "string"),
     ("amount", "string"), ("time", "uint64")]
    "HyperliquidTransaction:SpotSend"
  let payload : Payload := ⟨action, env.now, signature, none⟩
  ⟨.ok payload, [signature], [(payload, 1)]⟩

/-- Method `initiateWithdrawal(destination, amount)`. -/
def initiateWithdrawal (env : Env) (destination : String) (amount : Nat) : CallResult :=
  let action := Action.withdraw (if IS_MAINNET then "Mainnet" else "Testnet")
    "0xa4b1" destination (toString amount) env.now
  let signature := Sig.withdrawTyped action
  let payload : Payload := ⟨action, env.now, signature, none⟩
  ⟨.ok payload, [signature], [(payload, 1)]⟩

/-- Method `transferBetweenSpotAndPerp(usdc, toPerp)`: `usdc * 1e6`. -/
def transferBetweenSpotAndPerp (env : Env) (usdc : Nat) (toPerp : Bool) : CallResult :=
  let action := Action.spotUser ⟨usdc * 1000000, toPerp⟩
  let nonce := env.now
  let signature := Sig.l1 action none nonce
  let payload : Payload := ⟨action, nonce, signature, none⟩
  ⟨.ok payload, [signature], [(payload, 1)]⟩

/-- Method `scheduleCancel(time)`. -/
def scheduleCancel (env : Env) (time : Nat) : CallResult :=
  let action := Action.scheduleCancel time
  let nonce := env.now
  let signature := Sig.l1 action none nonce
  let payload : Payload := ⟨action, nonce, signature, none⟩
  ⟨.ok payload, [signature], [(payload, 1)]⟩

/-- Method `vaultTransfer(vaultAddress, isDeposit, usd)`. -/
def vaultTransfer (env : Env) (vaultAddress : String) (isDeposit : Bool)
    (usd : Nat) : CallResult :=
  let action := Action.vaultTransfer vaultAddress isDeposit usd
  let nonce := env.now
  let signature := Sig.l1 action none nonce
  let payload : Payload := ⟨action, nonce, signature, none⟩
  ⟨.ok payload, [signature], [(payload, 1)]⟩

/-- Method `setReferrer(code)`. -/
def setReferrer (env : Env) (code : String) : CallResult :=
  let action := Action.setReferrer code
  let nonce := env.now
  let signature := Sig.l1 action none nonce
  let payload : Payload := ⟨action, nonce, signature, none⟩
  ⟨.ok payload, [signature], [(payload, 1)]⟩

/-- One signed-action API call of `ExchangeAPI`, with its arguments. -/
inductive ApiCall where
  | place (req : OrderRequest) (vault : Option String)
  | cancel (reqs : List CancelRequest)
  | cancelByCloid (symbol : String) (cloid : String)
  | modify (oid : Nat) (req : OrderRequest)
  | batchModify (modifies : List ModifyRequest)
  | leverage (symbol : String) (leverageMode : String) (leverage : Nat)
  | isolatedMargin (symbol : String) (isBuy : Bool) (ntli : Int)
  | usd (destination : String) (amount : Nat)
  | spot (destination : String) (token : String) (amount : String)
  | withdraw (destination : String) (amount : Nat)
  | spotPerp (usdc : Nat) (toPerp : Bool)
  | schedule (time : Nat)
  | vault (vaultAddress : String) (isDeposit : Bool) (usd : Nat)
  | referrer (code : String)
  deriving Repr, DecidableEq

/-- Dispatch an API call against an environment. -/
def runCall (env : Env) : ApiCall → CallResult
  | .place req vault => placeOrder env req vault
  | .cancel reqs => cancelOrder env reqs
  | .cancelByCloid symbol cloid => cancelOrderByCloid env symbol cloid
  | .modify oid req => modifyOrder env oid req
  | .batchModify modifies => batchModifyOrders env modifies
  | .leverage symbol leverageMode leverage => updateLeverage env symbol leverageMode leverage
  | .isolatedMargin symbol isBuy ntli => updateIsolatedMargin env symbol isBuy ntli
  | .usd destination amount => usdTransfer env destination amount
  | .spot destination token amount => spotTransfer env destination token amount
  | .withdraw destination amount => initiateWithdrawal env destination amount
  | .spotPerp usdc toPerp => transferBetweenSpotAndPerp env usdc toPerp
  | .vault vaultAddress isDeposit usd => vaultTransfer env vaultAddress isDeposit usd
  | .schedule time => scheduleCancel env time
  | .referrer code => setReferrer env code

/-- The symbols an API call asks the directory to resolve, in resolution
order. -/
def refSymbols : ApiCall → List String
  | .place req _ => [req.coin]
  | .cancel reqs => reqs.map (fun r => r.coin)
  | .cancelByCloid symbol _ => [symbol]
  | .modify _ req => [req.coin]
  | .batchModify modifies => modifies.map (fun m => m.order.coin)
  | .leverage symbol _ _ => [symbol]
  | .isolatedMargin symbol _ _ => [symbol]
  | _ => []

/-- The `vaultAddress` key the payload of a call carries: only order
placement puts the key into the payload literal. -/
def ApiCall.vaultField : ApiCall → Option (Option String)
  | .place _ v => some v
  | _ => none

/-- The `time` field of an action, for the transfer-class shapes that have
one. -/
def Action.timeField : Action → Option Nat
  | .usdSend _ _ _ _ time => some time
  | .spotSend _ _ _ _ _ time => some time
  | .withdraw _ _ _ _ time => some time
  | _ => none

/-! Concrete fixtures used by witnesses and counterexamples: a small symbol
directory (`BTC ↦ 3`, `ETH ↦ 1`), two clock readings, and sample requests. -/

def exDir : String → Option Nat :=
  fun s => if s = "BTC" then some 3 else if s = "ETH" then some 1 else none

def exEnv : Env := ⟨exDir, 1000⟩

def exEnv2 : Env := ⟨exDir, 2000⟩

def exReq : OrderRequest := ⟨"BTC", true, "50000", "0.1", false, none⟩

def exReqEth : OrderRequest := ⟨"ETH", false, "3000", "2", true, some "0xabc123"⟩

def exPlaceAction : Action := Action.order [orderRequestToOrderWire exReq 3]

def exPlacePayload : Payload :=
  ⟨exPlaceAction, 1000, Sig.l1 exPlaceAction none 1000, some none⟩

def exCancelAction : Action := Action.cancel [⟨1, 9⟩]

def exCancelPayload : Payload :=
  ⟨exCancelAction, 2000, Sig.l1 exCancelAction none 2000, none⟩

def exC3CancelAction : Action := Action.cancel [⟨3, 7⟩, ⟨1, 9⟩]

def exC3CancelPayload : Payload :=
  ⟨exC3CancelAction, 1000, Sig.l1 exC3CancelAction none 1000, none⟩

def exBatchAction : Action :=
  Action.batchModify [⟨11, orderRequestToOrderWire exReqEth 1⟩]

def exBatchPayload : Payload :=
  ⟨exBatchAction, 1000, Sig.l1 exBatchAction none 1000, none⟩

def exCancelSameMsPayload : Payload :=
  ⟨exCancelAction, 1000, Sig.l1 exCancelAction none 1000, none⟩

def exScheduleAction : Action := Action.scheduleCancel 5000

def exSchedulePayload : Payload :=
  ⟨exScheduleAction, 1000, Sig.l1 exScheduleAction none 1000, none⟩

/-! Helper lemmas about the embedded operations. -/

theorem getAssetIndex_ok_iff (env : Env) (s : String) (i : Nat) :
    getAssetIndex env s = Except.ok i ↔ env.dir s = some i := by
  unfold getAssetIndex
  cases env.dir s <;> simp

theorem getAssetIndex_error_iff (env : Env) (s e : String) :
    getAssetIndex env s = Except.error e ↔
      env.dir s = none ∧ e = "Unknown asset: " ++ s := by
  unfold getAssetIndex
  cases env.dir s <;> simp [eq_comm]

theorem promiseAll_ok_iff {α β : Type} (f : α → Except String β) :
    ∀ (l : List α) (ys : List β),
      promiseAll f l = Except.ok ys ↔
        List.Forall₂ (fun x y => f x = Except.ok y) l ys
  | [], ys => by
      constructor
      · intro h
        simp only [promiseAll, Except.ok.injEq] at h
        subst h
        exact List.Forall₂.nil
      · intro h
        cases h
        rfl
  | x :: xs, ys => by
      constructor
      · intro h
        unfold promiseAll at h
        cases hfx : f x with
        | error e => rw [hfx] at h; cases h
        | ok y =>
          rw [hfx] at h
          cases hrec : promiseAll f xs with
          | error e => rw [hrec] at h; cases h
          | ok ys' =>
            rw [hrec] at h
            cases h
            exact List.Forall₂.cons hfx ((promiseAll_ok_iff f xs ys').mp hrec)
      · intro h
        cases h with
        | cons hxy htail =>
          unfold promiseAll
          rw [hxy, (promiseAll_ok_iff f xs _).mpr htail]

theorem promiseAll_error {α β : Type} (f : α → Except String β) :
    ∀ (l : List α) (x : α), x ∈ l → ∀ e, f x = Except.error e →
      ∃ x' ∈ l, ∃ e', f x' = Except.error e' ∧ promiseAll f l = Except.error e'
  | [], x, hx, _, _ => absurd hx (List.not_mem_nil x)
  | a :: t, x, hx, e, he => by
      cases hfa : f a with
      | error e0 =>
        exact ⟨a, List.mem_cons_self a t, e0, hfa, by unfold promiseAll; rw [hfa]⟩
      | ok y =>
        have hxt : x ∈ t := by
          rcases List.mem_cons.mp hx with h | h
          · subst h; rw [hfa] at he; cases he
          · exact h
        obtain ⟨x', hx't, e', hfx', hall⟩ := promiseAll_error f t x hxt e he
        exact ⟨x', List.mem_cons_of_mem a hx't, e', hfx', by
          unfold promiseAll; rw [hfa, hall]⟩

theorem forall₂_map_eq {α β γ : Type} (R : α → β → Prop) (g : β → γ) (h : α → γ)
    (hgh : ∀ x y, R x y → g y = h x) :
    ∀ (l : List α) (ys : List β), List.Forall₂ R l ys → ys.map g = l.map h
  | _, _, List.Forall₂.nil => rfl
  | _, _, List.Forall₂.cons hxy htail => by
      simp only [List.map_cons, hgh _ _ hxy, forall₂_map_eq R g h hgh _ _ htail]

theorem forall₂_zipWith {α β γ : Type} (R : α → β → Prop) (S : α → γ → Prop)
    (f : α → β → γ) (hf : ∀ x y, R x y → S x (f x y)) :
    ∀ (l1 : List α) (l2 : List β), List.Forall₂ R l1 l2 →
      List.Forall₂ S l1 (List.zipWith f l1 l2)
  | _, _, List.Forall₂.nil => List.Forall₂.nil
  | _, _, List.Forall₂.cons hxy htail =>
      List.Forall₂.cons (hf _ _ hxy) (forall₂_zipWith R S f hf _ _ htail)

/-- Shape of every successful call: the payload's nonce is the clock reading
of the call, the payload's `vaultAddress` key is present exactly when the
call is an order placement (`ApiCall.vaultField`), and exactly one signer
invocation and one dispatched request are produced. -/
theorem runCall_ok_shape (env : Env) (c : ApiCall) (p : Payload)
    (h : (runCall env c).result = Except.ok p) :
    p.nonce = env.now ∧ p.vaultAddress = c.vaultField ∧
    (runCall env c).signatures = [p.signature] ∧
    (runCall env c).requests = [(p, 1)] := by
  cases c with
  | place req vault =>
    cases hA : getAssetIndex env req.coin with
    | error e => simp [runCall, placeOrder, hA, failCall] at h
    | ok i =>
      simp only [runCall, placeOrder, hA] at h ⊢
      cases h
      exact ⟨rfl, rfl, rfl, rfl⟩
  | cancel reqs =>
    cases hA : promiseAll
        (fun req => (getAssetIndex env req.coin).map
          (fun a => CancelWithIndex.mk req.coin req.o a)) reqs with
    | error e => simp [runCall, cancelOrder, hA, failCall] at h
    | ok cwi =>
      simp only [runCall, cancelOrder, hA] at h ⊢
      cases h
      exact ⟨rfl, rfl, rfl, rfl⟩
  | cancelByCloid symbol cloid =>
    cases hA : getAssetIndex env symbol with
    | error e => simp [runCall, cancelOrderByCloid, hA, failCall] at h
    | ok i =>
      simp only [runCall, cancelOrderByCloid, hA] at h ⊢
      cases h
      exact ⟨rfl, rfl, rfl, rfl⟩
  | modify oid req =>
    cases hA : getAssetIndex env req.coin with
    | error e => simp [runCall, modifyOrder, hA, failCall] at h
    | ok i =>
      simp only [runCall, modifyOrder, hA] at h ⊢
      cases h
      exact ⟨rfl, rfl, rfl, rfl⟩
  | batchModify modifies =>
    cases hA : promiseAll (fun m => getAssetIndex env m.order.coin) modifies with
    | error e => simp [runCall, batchModifyOrders, hA, failCall] at h
    | ok ixs =>
      simp only [runCall, batchModifyOrders, hA] at h ⊢
      cases h
      exact ⟨rfl, rfl, rfl, rfl⟩
  | leverage symbol leverageMode leverage =>
    cases hA : getAssetIndex env symbol with
    | error e => simp [runCall, updateLeverage, hA, failCall] at h
    | ok i =>
      simp only [runCall, updateLeverage, hA] at h ⊢
      cases h
      exact ⟨rfl, rfl, rfl, rfl⟩
  | isolatedMargin symbol isBuy ntli =>
    cases hA : getAssetIndex env symbol with
    | error e => simp [runCall, updateIsolatedMargin, hA, failCall] at h
    | ok i =>
      simp only [runCall, updateIsolatedMargin, hA] at h ⊢
      cases h
      exact ⟨rfl, rfl, rfl, rfl⟩
  | usd destination amount =>
    simp only [runCall, usdTransfer] at h ⊢
    cases h
    exact ⟨rfl, rfl, rfl, rfl⟩
  | spot destination token amount =>
    simp only [runCall, spotTransfer] at h ⊢
    cases h
    exact ⟨rfl, rfl, rfl, rfl⟩
  | withdraw destination amount =>
    simp only [runCall, initiateWithdrawal] at h ⊢
    cases h
    exact ⟨rfl, rfl, rfl, rfl⟩
  | spotPerp usdc toPerp =>
    simp only [runCall, transferBetweenSpotAndPerp] at h ⊢
    cases h
    exact ⟨rfl, rfl, rfl, rfl⟩
  | schedule time =>
    simp only [runCall, scheduleCancel] at h ⊢
    cases h
    exact ⟨rfl, rfl, rfl, rfl⟩
  | vault vaultAddress isDeposit usd =>
    simp only [runCall, vaultTransfer] at h ⊢
    cases h
    exact ⟨rfl, rfl, rfl, rfl⟩
  | referrer code =>
    simp only [runCall, setReferrer] at h ⊢
    cases h
    exact ⟨rfl, rfl, rfl, rfl⟩

/-- Inversion for one element of the cancel batch: a successful spread-plus-
index value keeps the request's fields and carries the directory's index. -/
theorem cancelElem_ok (env : Env) (req : CancelRequest) (c : CancelWithIndex)
    (h : (getAssetIndex env req.coin).map
        (fun a => CancelWithIndex.mk req.coin req.o a) = Except.ok c) :
    c.coin = req.coin ∧ c.o = req.o ∧ env.dir req.coin = some c.a := by
  cases hg : getAssetIndex env req.coin with
  | error e => rw [hg] at h; simp [Except.map] at h
  | ok a =>
    rw [hg] at h
    simp only [Except.map, Except.ok.injEq] at h
    subst h
    exact ⟨rfl, rfl, (getAssetIndex_ok_iff env req.coin a).mp hg⟩

theorem zipWith_map_left {α β γ δ : Type} (f : α → β → γ) (g : γ → δ) (h : α → δ)
    (hg : ∀ x y, g (f x y) = h x) :
    ∀ (l1 : List α) (l2 : List β), l1.length = l2.length →
      (List.zipWith f l1 l2).map g = l1.map h
  | [], [], _ => rfl
  | [], _ :: _, h' => by simp at h'
  | _ :: _, [], h' => by simp at h'
  | x :: xs, y :: ys, h' => by
      simp only [List.zipWith_cons_cons, List.map_cons, hg]
      rw [zipWith_map_left f g h hg xs ys (by simpa using h')]

/-! Claim theorems. -/

/-- Claim C1, counterexample: two sequential signed-action calls from the same
instance, both within wall-clock millisecond 1000, both succeed, and the
second call's nonce (1000) is not strictly greater than the first call's
nonce (1000) — each nonce is the bare `Date.now()` reading. -/
theorem C1_counterexample :
    (runCall exEnv (ApiCall.place exReq none)).result = Except.ok exPlacePayload ∧
    (runCall exEnv (ApiCall.cancel [⟨"ETH", 9⟩])).result
      = Except.ok exCancelSameMsPayload ∧
    ¬ exPlacePayload.nonce < exCancelSameMsPayload.nonce :=
  ⟨rfl, rfl, by decide⟩

/-- Claim C1, amended: for any two sequential signed-action calls from the
same instance under a non-decreasing wall clock, the nonce of the second call
is greater than or equal to the nonce of the first; within the same
millisecond the nonces are equal, not strictly greater, because each nonce is
exactly the call's `Date.now()` reading. -/
theorem C1_nonce_nondecreasing (env1 env2 : Env) (c1 c2 : ApiCall) (p1 p2 : Payload)
    (hseq : env1.now ≤ env2.now)
    (h1 : (runCall env1 c1).result = Except.ok p1)
    (h2 : (runCall env2 c2).result = Except.ok p2) :
    p1.nonce ≤ p2.nonce := by
  have s1 := (runCall_ok_shape env1 c1 p1 h1).1
  have s2 := (runCall_ok_shape env2 c2 p2 h2).1
  omega

/-- Witness for C1_nonce_nondecreasing: a place call at millisecond 1000
followed by a cancel call at millisecond 2000. -/
theorem C1_nonce_nondecreasing_witness :
    exEnv.now ≤ exEnv2.now ∧
    (runCall exEnv (ApiCall.place exReq none)).result = Except.ok exPlacePayload ∧
    (runCall exEnv2 (ApiCall.cancel [⟨"ETH", 9⟩])).result = Except.ok exCancelPayload ∧
    exPlacePayload.nonce ≤ exCancelPayload.nonce :=
  ⟨by decide, rfl, rfl,
    C1_nonce_nondecreasing exEnv exEnv2 (ApiCall.place exReq none)
      (ApiCall.cancel [⟨"ETH", 9⟩]) exPlacePayload exCancelPayload (by decide) rfl rfl⟩

/-- Claim C5, counterexample: a `placeOrder` call whose caller passes no vault
address produces a payload whose `vaultAddress` key is present with value
`null` (`some none`), not absent (`none`), contradicting the claim that the
field is absent in that case. -/
theorem C5_counterexample :
    (placeOrder exEnv exReq none).result = Except.ok exPlacePayload ∧
    exPlacePayload.vaultAddress = some none ∧
    some (none : Option String) ≠ (none : Option (Option String)) :=
  ⟨rfl, rfl, by decide⟩

/-- Claim C5, amended: the `vaultAddress` key is included in the dispatched
payload only for order placement (`ApiCall.vaultField` is `some` exactly for
`ApiCall.place`, carrying the caller's argument) and for no other operation;
when the caller passes no vault address the key is present with value `null`
rather than absent. -/
theorem C5_vault_only_for_orders (env : Env) (c : ApiCall) (p : Payload)
    (h : (runCall env c).result = Except.ok p) :
    p.vaultAddress = c.vaultField :=
  (runCall_ok_shape env c p h).2.1

/-- Witness for C5_vault_only_for_orders: an order placement (key present,
holding `null`) and a schedule-cancel call (key absent). -/
theorem C5_vault_only_for_orders_witness :
    ((runCall exEnv (ApiCall.place exReq none)).result = Except.ok exPlacePayload ∧
      exPlacePayload.vaultAddress = (ApiCall.place exReq none).vaultField) ∧
    ((runCall exEnv (ApiCall.schedule 5000)).result = Except.ok exSchedulePayload ∧
      exSchedulePayload.vaultAddress = (ApiCall.schedule 5000).vaultField) :=
  ⟨⟨rfl, C5_vault_only_for_orders exEnv (ApiCall.place exReq none) exPlacePayload rfl⟩,
   ⟨rfl, C5_vault_only_for_orders exEnv (ApiCall.schedule 5000) exSchedulePayload rfl⟩⟩

/-- Claim C6: `usdTransfer(dest, 100)` builds an action whose `amount` field
is the decimal string "100", whose `hyperliquidChain` field matches the
configured network (`IS_MAINNET`) and whose `signatureChainId` is the verbatim
"0xa4b1", and signs it through the typed-data transfer scheme
(`signUsdTransferAction`), not the L1 scheme. -/
theorem C6_usdTransfer_shape (env : Env) (dest : String) :
    (usdTransfer env dest 100).result.map Payload.action
      = Except.ok (Action.usdSend (if IS_MAINNET then "Mainnet" else "Testnet")
          "0xa4b1" dest "100" env.now) ∧
    (usdTransfer env dest 100).result.map (fun p => p.signature.scheme)
      = Except.ok SignScheme.typedTransfer ∧
    SignScheme.typedTransfer ≠ SignScheme.l1 :=
  ⟨rfl, rfl, by decide⟩

/-- Claim C7: `transferBetweenSpotAndPerp(usdc, toPerp)` builds an action
whose `classTransfer.usdc` field is `usdc` scaled by exactly 10^6 and whose
`toPerp` field is the given boolean; in particular input 50 yields
50000000. -/
theorem C7_spotPerp_scaling (env : Env) (usdc : Nat) (toPerp : Bool) :
    (transferBetweenSpotAndPerp env usdc toPerp).result.map Payload.action
      = Except.ok (Action.spotUser ⟨usdc * 1000000, toPerp⟩) ∧
    (transferBetweenSpotAndPerp env 50 true).result.map Payload.action
      = Except.ok (Action.spotUser ⟨50000000, true⟩) :=
  ⟨rfl, rfl⟩

/-- Claim C9: a batch operation invoked with a zero-length input list does not
fail: it builds an empty-list action and still produces exactly one signer
invocation and one dispatched request. -/
theorem C9_empty_batch (env : Env) :
    (cancelOrder env []).result.map Payload.action = Except.ok (Action.cancel []) ∧
    (cancelOrder env []).signatures.length = 1 ∧
    (cancelOrder env []).requests.length = 1 ∧
    (batchModifyOrders env []).result.map Payload.action
      = Except.ok (Action.batchModify []) ∧
    (batchModifyOrders env []).signatures.length = 1 ∧
    (batchModifyOrders env []).requests.length = 1 :=
  ⟨rfl, rfl, rfl, rfl, rfl, rfl⟩

/-- Claim C10: for each transfer-class operation (`usdTransfer`,
`spotTransfer`, `initiateWithdrawal`), the `nonce` of the dispatched payload
equals the `time` field embedded in the signed action. -/
theorem C10_transfer_nonce_matches_time (env : Env) (dest token amountStr : String)
    (amount : Nat) :
    (usdTransfer env dest amount).result.map (fun p => p.action.timeField)
      = (usdTransfer env dest amount).result.map (fun p => some p.nonce) ∧
    (spotTransfer env dest token amountStr).result.map (fun p => p.action.timeField)
      = (spotTransfer env dest token amountStr).result.map (fun p => some p.nonce) ∧
    (initiateWithdrawal env dest amount).result.map (fun p => p.action.timeField)
      = (initiateWithdrawal env dest amount).result.map (fun p => some p.nonce) :=
  ⟨rfl, rfl, rfl⟩

/-- Claim C2: every operation that references a symbol with no asset index in
the directory throws `Unknown asset: <symbol>` for one of its unresolvable
symbols, with zero signer invocations and zero dispatched requests — the call
fails before any signature is computed and before any network request is
issued. -/
theorem C2_unknown_symbol (env : Env) (c : ApiCall)
    (h : ∃ s ∈ refSymbols c, env.dir s = none) :
    (∃ s ∈ refSymbols c, env.dir s = none ∧
      (runCall env c).result = Except.error ("Unknown asset: " ++ s)) ∧
    (runCall env c).signatures = [] ∧ (runCall env c).requests = [] := by
  obtain ⟨s, hs, hdir⟩ := h
  cases c with
  | place req vault =>
    simp only [refSymbols, List.mem_singleton] at hs
    subst hs
    have hA : getAssetIndex env req.coin = Except.error ("Unknown asset: " ++ req.coin) :=
      (getAssetIndex_error_iff env req.coin _).mpr ⟨hdir, rfl⟩
    exact ⟨⟨req.coin, List.mem_singleton.mpr rfl, hdir,
      by simp [runCall, placeOrder, hA, failCall]⟩,
      by simp [runCall, placeOrder, hA, failCall],
      by simp [runCall, placeOrder, hA, failCall]⟩
  | cancelByCloid symbol cloid =>
    simp only [refSymbols, List.mem_singleton] at hs
    subst hs
    have hA : getAssetIndex env s = Except.error ("Unknown asset: " ++ s) :=
      (getAssetIndex_error_iff env s _).mpr ⟨hdir, rfl⟩
    exact ⟨⟨s, List.mem_singleton.mpr rfl, hdir,
      by simp [runCall, cancelOrderByCloid, hA, failCall]⟩,
      by simp [runCall, cancelOrderByCloid, hA, failCall],
      by simp [runCall, cancelOrderByCloid, hA, failCall]⟩
  | modify oid req =>
    simp only [refSymbols, List.mem_singleton] at hs
    subst hs
    have hA : getAssetIndex env req.coin = Except.error ("Unknown asset: " ++ req.coin) :=
      (getAssetIndex_error_iff env req.coin _).mpr ⟨hdir, rfl⟩
    exact ⟨⟨req.coin, List.mem_singleton.mpr rfl, hdir,
      by simp [runCall, modifyOrder, hA, failCall]⟩,
      by simp [runCall, modifyOrder, hA, failCall],
      by simp [runCall, modifyOrder, hA, failCall]⟩
  | leverage symbol leverageMode leverage =>
    simp only [refSymbols, List.mem_singleton] at hs
    subst hs
    have hA : getAssetIndex env s = Except.error ("Unknown asset: " ++ s) :=
      (getAssetIndex_error_iff env s _).mpr ⟨hdir, rfl⟩
    exact ⟨⟨s, List.mem_singleton.mpr rfl, hdir,
      by simp [runCall, updateLeverage, hA, failCall]⟩,
      by simp [runCall, updateLeverage, hA, failCall],
      by simp [runCall, updateLeverage, hA, failCall]⟩
  | isolatedMargin symbol isBuy ntli =>
    simp only [refSymbols, List.mem_singleton] at hs
    subst hs
    have hA : getAssetIndex env s = Except.error ("Unknown asset: " ++ s) :=
      (getAssetIndex_error_iff env s _).mpr ⟨hdir, rfl⟩
    exact ⟨⟨s, List.mem_singleton.mpr rfl, hdir,
      by simp [runCall, updateIsolatedMargin, hA, failCall]⟩,
      by simp [runCall, updateIsolatedMargin, hA, failCall],
      by simp [runCall, updateIsolatedMargin, hA, failCall]⟩
  | cancel reqs =>
    simp only [refSymbols] at hs
    obtain ⟨r, hr, hrc⟩ := List.mem_map.mp hs
    have hdr : env.dir r.coin = none := by rw [hrc]; exact hdir
    have hfr : (getAssetIndex env r.coin).map
        (fun a => CancelWithIndex.mk r.coin r.o a)
        = Except.error ("Unknown asset: " ++ r.coin) := by
      rw [(getAssetIndex_error_iff env r.coin _).mpr ⟨hdr, rfl⟩]
      rfl
    obtain ⟨x', hx', e', hfx', hall⟩ :=
      promiseAll_error
        (fun req => (getAssetIndex env req.coin).map
          (fun a => CancelWithIndex.mk req.coin req.o a))
        reqs r hr _ hfr
    have hx'err : env.dir x'.coin = none ∧ e' = "Unknown asset: " ++ x'.coin := by
      cases hg : getAssetIndex env x'.coin with
      | error e0 =>
        rw [hg] at hfx'
        simp only [Except.map] at hfx'
        cases hfx'
        exact (getAssetIndex_error_iff env x'.coin _).mp hg
      | ok a => rw [hg] at hfx'; simp [Except.map] at hfx'
    refine ⟨⟨x'.coin, ?_, hx'err.1, ?_⟩, ?_, ?_⟩
    · exact List.mem_map.mpr ⟨x', hx', rfl⟩
    · rw [← hx'err.2]
      simp [runCall, cancelOrder, hall, failCall]
    · simp [runCall, cancelOrder, hall, failCall]
    · simp [runCall, cancelOrder, hall, failCall]
  | batchModify modifies =>
    simp only [refSymbols] at hs
    obtain ⟨m, hm, hmc⟩ := List.mem_map.mp hs
    have hdm : env.dir m.order.coin = none := by rw [hmc]; exact hdir
    have hfm : getAssetIndex env m.order.coin
        = Except.error ("Unknown asset: " ++ m.order.coin) :=
      (getAssetIndex_error_iff env m.order.coin _).mpr ⟨hdm, rfl⟩
    obtain ⟨x', hx', e', hfx', hall⟩ :=
      promiseAll_error (fun m => getAssetIndex env m.order.coin) modifies m hm _ hfm
    have hx'err : env.dir x'.order.coin = none ∧ e' = "Unknown asset: " ++ x'.order.coin :=
      (getAssetIndex_error_iff env x'.order.coin e').mp hfx'
    refine ⟨⟨x'.order.coin, ?_, hx'err.1, ?_⟩, ?_, ?_⟩
    · exact List.mem_map.mpr ⟨x', hx', rfl⟩
    · rw [← hx'err.2]
      simp [runCall, batchModifyOrders, hall, failCall]
    · simp [runCall, batchModifyOrders, hall, failCall]
    · simp [runCall, batchModifyOrders, hall, failCall]
  | usd destination amount => exact absurd hs (List.not_mem_nil s)
  | spot destination token amount => exact absurd hs (List.not_mem_nil s)
  | withdraw destination amount => exact absurd hs (List.not_mem_nil s)
  | spotPerp usdc toPerp => exact absurd hs (List.not_mem_nil s)
  | schedule time => exact absurd hs (List.not_mem_nil s)
  | vault vaultAddress isDeposit usd => exact absurd hs (List.not_mem_nil s)
  | referrer code => exact absurd hs (List.not_mem_nil s)

/-- Witness for C2_unknown_symbol: cancelling by CLOID on the unknown symbol
"DOGE" against the example directory. -/
theorem C2_unknown_symbol_witness :
    (∃ s ∈ refSymbols (ApiCall.cancelByCloid "DOGE" "0xc1"), exEnv.dir s = none) ∧
    ((∃ s ∈ refSymbols (ApiCall.cancelByCloid "DOGE" "0xc1"), exEnv.dir s = none ∧
        (runCall exEnv (ApiCall.cancelByCloid "DOGE" "0xc1")).result
          = Except.error ("Unknown asset: " ++ s)) ∧
      (runCall exEnv (ApiCall.cancelByCloid "DOGE" "0xc1")).signatures = [] ∧
      (runCall exEnv (ApiCall.cancelByCloid "DOGE" "0xc1")).requests = []) :=
  ⟨⟨"DOGE", List.mem_singleton.mpr rfl, rfl⟩,
    C2_unknown_symbol exEnv (ApiCall.cancelByCloid "DOGE" "0xc1")
      ⟨"DOGE", List.mem_singleton.mpr rfl, rfl⟩⟩

/-- Claim C3: a batch cancel and a batch modify each produce exactly one
signer invocation and one dispatched request (hence one nonce, carried by the
single payload) regardless of the batch size, and the items inside the built
action are in the caller's input order (witnessed by the order-id sequence
being preserved). -/
theorem C3_batch_single_dispatch (env : Env) (reqs : List CancelRequest)
    (ms : List ModifyRequest) (p q : Payload)
    (hc : (cancelOrder env reqs).result = Except.ok p)
    (hm : (batchModifyOrders env ms).result = Except.ok q) :
    (cancelOrder env reqs).signatures.length = 1 ∧
    (cancelOrder env reqs).requests.length = 1 ∧
    (∃ items, p.action = Action.cancel items ∧
      items.map CancelItem.o = reqs.map CancelRequest.o) ∧
    (batchModifyOrders env ms).signatures.length = 1 ∧
    (batchModifyOrders env ms).requests.length = 1 ∧
    (∃ wires, q.action = Action.batchModify wires ∧
      wires.map ModifyWire.oid = ms.map ModifyRequest.oid) := by
  cases hAll : promiseAll
      (fun req => (getAssetIndex env req.coin).map
        (fun a => CancelWithIndex.mk req.coin req.o a)) reqs with
  | error e => simp [cancelOrder, hAll, failCall] at hc
  | ok cwi =>
    cases hAllm : promiseAll (fun m => getAssetIndex env m.order.coin) ms with
    | error e => simp [batchModifyOrders, hAllm, failCall] at hm
    | ok ixs =>
      simp only [cancelOrder, hAll] at hc ⊢
      simp only [batchModifyOrders, hAllm] at hm ⊢
      cases hc
      cases hm
      have hf2c := (promiseAll_ok_iff _ reqs cwi).mp hAll
      have hf2m := (promiseAll_ok_iff _ ms ixs).mp hAllm
      refine ⟨rfl, rfl, ⟨cwi.map (fun c => ⟨c.a, c.o⟩), rfl, ?_⟩,
        rfl, rfl, ⟨_, rfl, ?_⟩⟩
      · rw [List.map_map]
        exact forall₂_map_eq _ _ _
          (fun req c hrc => ((cancelElem_ok env req c hrc).2.1 : c.o = req.o))
          reqs cwi hf2c
      · exact zipWith_map_left
          (fun m a => ModifyWire.mk m.oid (orderRequestToOrderWire m.order a))
          ModifyWire.oid ModifyRequest.oid (fun m a => rfl) ms ixs hf2m.length_eq

/-- Witness for C3_batch_single_dispatch: a two-element cancel batch and a
one-element modify batch against the example directory. -/
theorem C3_batch_single_dispatch_witness :
    (cancelOrder exEnv [⟨"BTC", 7⟩, ⟨"ETH", 9⟩]).result = Except.ok exC3CancelPayload ∧
    (batchModifyOrders exEnv [⟨11, exReqEth⟩]).result = Except.ok exBatchPayload ∧
    ((cancelOrder exEnv [⟨"BTC", 7⟩, ⟨"ETH", 9⟩]).signatures.length = 1 ∧
      (cancelOrder exEnv [⟨"BTC", 7⟩, ⟨"ETH", 9⟩]).requests.length = 1 ∧
      (∃ items, exC3CancelPayload.action = Action.cancel items ∧
        items.map CancelItem.o
          = List.map CancelRequest.o [⟨"BTC", 7⟩, ⟨"ETH", 9⟩]) ∧
      (batchModifyOrders exEnv [⟨11, exReqEth⟩]).signatures.length = 1 ∧
      (batchModifyOrders exEnv [⟨11, exReqEth⟩]).requests.length = 1 ∧
      (∃ wires, exBatchPayload.action = Action.batchModify wires ∧
        wires.map ModifyWire.oid = List.map ModifyRequest.oid [⟨11, exReqEth⟩])) :=
  ⟨rfl, rfl,
    C3_batch_single_dispatch exEnv [⟨"BTC", 7⟩, ⟨"ETH", 9⟩] [⟨11, exReqEth⟩]
      exC3CancelPayload exBatchPayload rfl rfl⟩

/-- Claim C4: the asset index the directory returns for a symbol is exactly
the index embedded in the action built for an operation on that symbol: an
order placement embeds the resolved index in its single order wire, and a
batch modify pairs each input with its own resolved index by position. -/
theorem C4_index_consistency (env : Env) (req : OrderRequest) (vault : Option String)
    (i : Nat) (ms : List ModifyRequest) (q : Payload)
    (hi : env.dir req.coin = some i)
    (hq : (batchModifyOrders env ms).result = Except.ok q) :
    (placeOrder env req vault).result.map Payload.action
      = Except.ok (Action.order [orderRequestToOrderWire req i]) ∧
    (orderRequestToOrderWire req i).asset = i ∧
    ∃ wires, q.action = Action.batchModify wires ∧
      List.Forall₂ (fun (m : ModifyRequest) (w : ModifyWire) =>
        ∃ a, env.dir m.order.coin = some a ∧
          w = ModifyWire.mk m.oid (orderRequestToOrderWire m.order a)) ms wires := by
  have hA : getAssetIndex env req.coin = Except.ok i :=
    (getAssetIndex_ok_iff env req.coin i).mpr hi
  cases hAllm : promiseAll (fun m => getAssetIndex env m.order.coin) ms with
  | error e => simp [batchModifyOrders, hAllm, failCall] at hq
  | ok ixs =>
    simp only [batchModifyOrders, hAllm] at hq
    cases hq
    refine ⟨by simp [placeOrder, hA, orderWiresToOrderAction, Except.map], rfl, _, rfl, ?_⟩
    exact forall₂_zipWith _ _ _
      (fun m a hma => ⟨a, (getAssetIndex_ok_iff env m.order.coin a).mp hma, rfl⟩)
      ms ixs ((promiseAll_ok_iff _ ms ixs).mp hAllm)

/-- Witness for C4_index_consistency: placing an order on "BTC" (index 3) and
batch-modifying one order on "ETH" (index 1). -/
theorem C4_index_consistency_witness :
    exEnv.dir "BTC" = some 3 ∧
    (batchModifyOrders exEnv [⟨11, exReqEth⟩]).result = Except.ok exBatchPayload ∧
    ((placeOrder exEnv exReq none).result.map Payload.action
        = Except.ok (Action.order [orderRequestToOrderWire exReq 3]) ∧
      (orderRequestToOrderWire exReq 3).asset = 3 ∧
      ∃ wires, exBatchPayload.action = Action.batchModify wires ∧
        List.Forall₂ (fun (m : ModifyRequest) (w : ModifyWire) =>
          ∃ a, exEnv.dir m.order.coin = some a ∧
            w = ModifyWire.mk m.oid (orderRequestToOrderWire m.order a))
          [⟨11, exReqEth⟩] wires) :=
  ⟨rfl, rfl,
    C4_index_consistency exEnv exReq none 3 [⟨11, exReqEth⟩] exBatchPayload rfl rfl⟩

/-- Claim C8: `cancelOrderByCloid(symbol, cloid)`, when the symbol resolves to
asset index `i`, builds exactly the action
`{type: CANCEL_BY_CLOID, cancels: [{asset: i, cloid}]}` and signs it with the
L1 scheme. -/
theorem C8_cancelByCloid_action (env : Env) (symbol cloid : String) (i : Nat)
    (hi : env.dir symbol = some i) :
    (cancelOrderByCloid env symbol cloid).result.map Payload.action
      = Except.ok (Action.cancelByCloid [⟨i, cloid⟩]) ∧
    (cancelOrderByCloid env symbol cloid).result.map (fun p => p.signature.scheme)
      = Except.ok SignScheme.l1 := by
  have hA : getAssetIndex env symbol = Except.ok i :=
    (getAssetIndex_ok_iff env symbol i).mpr hi
  constructor <;> simp [cancelOrderByCloid, hA, Sig.scheme, Except.map]

/-- Witness for C8_cancelByCloid_action: cancelling on "ETH", which the
example directory resolves to index 1. -/
theorem C8_cancelByCloid_action_witness :
    exEnv.dir "ETH" = some 1 ∧
    ((cancelOrderByCloid exEnv "ETH" "0xc1").result.map Payload.action
        = Except.ok (Action.cancelByCloid [⟨1, "0xc1"⟩]) ∧
      (cancelOrderByCloid exEnv "ETH" "0xc1").result.map (fun p => p.signature.scheme)
        = Except.ok SignScheme.l1) :=
  ⟨rfl, C8_cancelByCloid_action exEnv "ETH" "0xc1" 1 rfl⟩

end Hyperliquid
